import Mathlib

/-!
Verification of the process supervisor and executable-discovery subsystem of
the `incito` desktop application (`apps/desktop/src-tauri/src/main.rs`).

The Rust code is shallowly embedded: each Tauri command becomes a Lean
function over an explicit state and an environment record describing the
outcomes of the OS calls it performs (sidecar creation, spawn, kill,
`which`, filesystem existence, and the polled `try_wait` of the version
probe).  The `Mutex` around the supervisor state is modelled as sequential
exclusive access: every command embeds as one atomic state transformer,
which is exactly the view the lock enforces (lock poisoning, surfaced in
Rust as a generic error string, is outside the state machine and not
modelled).
-/

namespace Incito

/-- A handle to a spawned sidecar process (`tauri_plugin_shell::process::CommandChild`):
the supervisor only ever reads its pid and passes it to `kill`. -/
structure CommandChild where
  pid : Nat
deriving DecidableEq, Repr

/-- The command being assembled before spawning: the environment variables and
command-line arguments added to the base sidecar command. -/
structure Command where
  envs : List (String × String)
  args : List String
deriving DecidableEq, Repr

/-- Outcomes of the OS calls made by `start_claude_code_server`:
`sidecar` is the result of `app.shell().sidecar("claude-code-server")`
(the base command or an error), and `spawn` gives, for the fully assembled
command, either the spawned child or the OS error. -/
structure StartEnv where
  sidecar : Except String Command
  spawn : Command → Except String CommandChild

/-- Outcome of the OS call made by `stop_claude_code_server`:
`kill` is the result of `child.kill()`. -/
structure StopEnv where
  kill : CommandChild → Except String Unit

/-- The argument handling of `start_claude_code_server` (main.rs lines 33-40):
a non-empty `executable_path` is added both as the environment variable
`CLAUDE_CODE_EXECUTABLE_PATH` and as the `--claude-path` argument; `None`
and the empty string add nothing. -/
def buildCommand (base : Command) (executable_path : Option String) : Command :=
  match executable_path with
  | none => base
  | some path =>
    if path.isEmpty then base
    else { envs := base.envs ++ [("CLAUDE_CODE_EXECUTABLE_PATH", path)]
           args := base.args ++ ["--claude-path", path] }

/-- `start_claude_code_server` (main.rs lines 16-50).  State is the content of
`ClaudeCodeState.process`.  Returns the command result, the new state, and
the command that was passed to `spawn` (`none` when no spawn was attempted). -/
def start_claude_code_server (env : StartEnv) (state : Option CommandChild)
    (executable_path : Option String) :
    Except String Nat × Option CommandChild × Option Command :=
  match state with
  | some child => (.error "Claude Code server is already running", some child, none)
  | none =>
    match env.sidecar with
    | .error e => (.error ("Failed to create sidecar command: " ++ e), none, none)
    | .ok base =>
      let cmd := buildCommand base executable_path
      match env.spawn cmd with
      | .error e => (.error ("Failed to spawn sidecar: " ++ e), none, some cmd)
      | .ok child => (.ok child.pid, some child, some cmd)

/-- `stop_claude_code_server` (main.rs lines 52-63).  Returns the command
result, the new state, and whether `kill` was invoked. -/
def stop_claude_code_server (env : StopEnv) (state : Option CommandChild) :
    Except String Unit × Option CommandChild × Bool :=
  match state with
  | none => (.ok (), none, false)
  | some child =>
    match env.kill child with
    | .error e => (.error ("Failed to kill process: " ++ e), none, true)
    | .ok _ => (.ok (), none, true)

/-- `get_claude_code_server_status` (main.rs lines 65-71): reads whether a
handle is present; the state is returned unchanged. -/
def get_claude_code_server_status (state : Option CommandChild) :
    Bool × Option CommandChild :=
  (state.isSome, state)

/-- One supervisor call together with the outcomes of the OS calls it makes. -/
inductive Op where
  | start (env : StartEnv) (p : Option String)
  | stop (env : StopEnv)
  | status

/-- The state transition of one supervisor call. -/
def step (state : Option CommandChild) : Op → Option CommandChild
  | .start env p => (start_claude_code_server env state p).2.1
  | .stop env => (stop_claude_code_server env state).2.1
  | .status => (get_claude_code_server_status state).2

/-- Running a sequence of supervisor calls from a state. -/
def runOps : Option CommandChild → List Op → Option CommandChild
  | st, [] => st
  | st, op :: rest => runOps (step st op) rest

/-- Whether a `start` issued in the `NotRunning` state would succeed under the
given OS outcomes: sidecar creation and the spawn of the assembled command
both succeed. -/
def startOk (env : StartEnv) (p : Option String) : Bool :=
  match env.sidecar with
  | .error _ => false
  | .ok base =>
    match env.spawn (buildCommand base p) with
    | .error _ => false
    | .ok _ => true

def Op.isStop : Op → Bool
  | .stop _ => true
  | _ => false

/-- `ClaudeCodePathResult` (main.rs lines 80-86). -/
structure ClaudeCodePathResult where
  found : Bool
  path : Option String
  version : Option String
  error : Option String
deriving DecidableEq, Repr

/-- One observation of `child.try_wait()` in the probe's polling loop
(main.rs line 191): the child has exited with the given success status,
is still running, or the wait itself errored. -/
inductive TryWaitRes where
  | exited (success : Bool)
  | running
  | err
deriving DecidableEq, Repr

/-- Process-level events of the probe, used to state which OS processes a
call creates or destroys. -/
inductive PEvent where
  | spawn
  | kill
deriving DecidableEq, Repr

/-- Outcomes of the OS calls made by `get_claude_version` for one probed path:
whether the `spawn` at line 183 succeeds, what `try_wait` reports at the
n-th iteration of the loop, the wall-clock milliseconds `start.elapsed()`
reads at the n-th iteration, the result of `wait_with_output()` (captured
stdout bytes, `none` on error), and whether `child.kill()` succeeds. -/
structure ProbeEnv where
  spawnOk : Bool
  tryWait : Nat → TryWaitRes
  elapsedMs : Nat → Nat
  waitOutput : Option String
  killOk : Bool

/-- Rust's `str::trim`: leading and trailing whitespace removed.  Modelled
over the character list (Lean's `String.trim` is byte-position based and
does not reduce in the kernel). -/
def rustTrim (s : String) : String :=
  String.mk (((s.data.dropWhile Char.isWhitespace).reverse.dropWhile Char.isWhitespace).reverse)

/-- The polling loop of `get_claude_version` (main.rs lines 190-211),
iteration index `i`, with fuel: `none` means the fuel ran out before the
loop returned (in the program, `elapsedMs` grows by real time so the loop
always returns).  On a successful exit status the captured stdout is
trimmed (`wait_with_output().ok()?` yields `none` on capture error, which
makes the whole probe return no version); on a failure status, a wait
error, or a check finding the child still running past the 5000 ms bound
the probe returns no version, in the last case after a `kill` whose own
result is discarded. -/
def probeLoop (env : ProbeEnv) : Nat → Nat → Option (Option String × List PEvent)
  | _, 0 => none
  | i, fuel + 1 =>
    match env.tryWait i with
    | .exited true => some (env.waitOutput.map rustTrim, [PEvent.spawn])
    | .exited false => some (none, [PEvent.spawn])
    | .err => some (none, [PEvent.spawn])
    | .running =>
      if env.elapsedMs i > 5000 then some (none, [PEvent.spawn, PEvent.kill])
      else probeLoop env (i + 1) fuel

/-- `get_claude_version` (main.rs lines 173-212): spawn failure yields no
version immediately; otherwise the polling loop decides.  The `List PEvent`
records the processes created and killed by the call. -/
def get_claude_version (env : ProbeEnv) (fuel : Nat) :
    Option (Option String × List PEvent) :=
  if env.spawnOk then probeLoop env 0 fuel
  else some (none, [PEvent.spawn])

/-- Rust's `stdout.lines().next().unwrap_or("")` (main.rs lines 103-106):
the text up to the first line feed, with a trailing carriage return
stripped; the empty string when there is no line. -/
def firstLine (s : String) : String :=
  let l := s.data.takeWhile (fun c => c ≠ '\n')
  String.mk (if l.getLast? = some '\r' then l.dropLast else l)

/-- The output of `which claude` / `where claude`: the exit status and the
captured stdout. -/
structure WhichOutput where
  success : Bool
  stdout : String
deriving DecidableEq, Repr

/-- Outcome of the search-path lookup performed by `find_claude_code_path`:
`Except.error` is an I/O failure of running `which`/`where` itself. -/
structure FindEnv where
  whichOutcome : Except String WhichOutput

/-- `find_claude_code_path` (main.rs lines 88-141).  The version probe on the
candidate path runs `get_claude_version` under `penv`; the outer `none`
only signals probe fuel exhaustion. -/
def find_claude_code_path (env : FindEnv) (penv : ProbeEnv) (fuel : Nat) :
    Option (ClaudeCodePathResult × List PEvent) :=
  match env.whichOutcome with
  | .ok result =>
    if result.success then
      let path := rustTrim (firstLine result.stdout)
      if path.isEmpty then
        some (⟨false, none, none, some "Claude Code not found in system PATH"⟩, [])
      else
        match get_claude_version penv fuel with
        | none => none
        | some (version, evs) => some (⟨true, some path, version, none⟩, evs)
    else
      some (⟨false, none, none, some "Claude Code not found in system PATH"⟩, [])
  | .error e =>
    some (⟨false, none, none, some ("Failed to search for Claude Code: " ++ e)⟩, [])

/-- `check_claude_code_path` (main.rs lines 143-171).  `fileExists` models
`std::path::Path::new(&path).exists()`; the probe runs `get_claude_version`
under `penv`, and the event list records the processes the call spawned. -/
def check_claude_code_path (fileExists : String → Bool) (penv : ProbeEnv)
    (fuel : Nat) (path : String) :
    Option (ClaudeCodePathResult × List PEvent) :=
  if fileExists path = false then
    some (⟨false, some path, none, some "File does not exist"⟩, [])
  else
    match get_claude_version penv fuel with
    | none => none
    | some (some version, evs) =>
      some (⟨true, some path, some version, none⟩, evs)
    | some (none, evs) =>
      some (⟨false, some path, none,
             some "File exists but does not appear to be Claude Code (could not get version)"⟩, evs)

/-! Concrete environments used to instantiate the theorems below. -/

/-- A concrete base sidecar command. -/
def baseCmd : Command := ⟨[], []⟩

/-- A start environment in which sidecar creation and spawning both succeed,
yielding a child with pid 7. -/
def envStartOk : StartEnv := ⟨.ok baseCmd, fun _ => .ok ⟨7⟩⟩

/-- A start environment in which sidecar creation succeeds but the spawn
fails. -/
def envStartSpawnFail : StartEnv := ⟨.ok baseCmd, fun _ => .error "boom"⟩

/-- A stop environment in which the kill succeeds. -/
def envStopOk : StopEnv := ⟨fun _ => .ok ()⟩

/-- A stop environment in which the OS refuses the kill. -/
def envStopFail : StopEnv := ⟨fun _ => .error "EPERM"⟩

/-- A probe environment in which the spawn itself fails. -/
def penvSpawnFail : ProbeEnv :=
  ⟨false, fun _ => .running, fun _ => 0, none, true⟩

/-- A probe environment: still running at the first check, exited
successfully at the second, stdout ` 1.0.40 (Claude Code) \n`. -/
def penvVersion : ProbeEnv :=
  ⟨true, fun n => if n = 0 then .running else .exited true,
   fun n => 100 * (n + 1), some " 1.0.40 (Claude Code) \n", true⟩

/-- A probe environment in which the child exits with a failure status at the
first check. -/
def penvExitFail : ProbeEnv :=
  ⟨true, fun _ => .exited false, fun _ => 100, none, true⟩

/-- A probe environment in which the child never exits and the clock passes
the 5-second bound at the third check, with the cleanup kill failing. -/
def penvTimeout : ProbeEnv :=
  ⟨true, fun _ => .running, fun n => if n < 2 then 100 * (n + 1) else 6000, none, false⟩

/-- A search-path environment in which `which` finds `/usr/bin/claude`. -/
def fenvFound : FindEnv := ⟨.ok ⟨true, "/usr/bin/claude\n"⟩⟩

end Incito

namespace Incito

/-- A probe check that keeps the loop going (child still running, clock within
the 5000 ms bound) just advances the iteration index. -/
theorem probeLoop_step_running (env : ProbeEnv) (i fuel : Nat)
    (hr : env.tryWait i = .running) (he : env.elapsedMs i ≤ 5000) :
    probeLoop env i (fuel + 1) = probeLoop env (i + 1) fuel := by
  simp [probeLoop, hr, Nat.not_lt.2 he]

/-- Evaluation of the polling loop: if the first `n` checks find the child
running within the time bound and the check at `n` does not, the loop
returns the outcome decided by that check. -/
theorem probeLoop_eval (env : ProbeEnv) :
    ∀ (fuel i n : Nat), n < fuel →
    (∀ m, m < n → env.tryWait (i + m) = .running ∧ env.elapsedMs (i + m) ≤ 5000) →
    ¬(env.tryWait (i + n) = .running ∧ env.elapsedMs (i + n) ≤ 5000) →
    probeLoop env i fuel = some (
      match env.tryWait (i + n) with
      | .exited true => (env.waitOutput.map rustTrim, [PEvent.spawn])
      | .exited false => (none, [PEvent.spawn])
      | .err => (none, [PEvent.spawn])
      | .running => (none, [PEvent.spawn, PEvent.kill])) := by
  intro fuel
  induction fuel with
  | zero => intro i n hn; omega
  | succ f ih =>
    intro i n hn hall hlast
    cases n with
    | zero =>
      simp only [Nat.add_zero] at hlast
      cases hw : env.tryWait i with
      | exited b =>
        cases b with
        | true => simp [probeLoop, hw, Nat.add_zero]
        | false => simp [probeLoop, hw, Nat.add_zero]
      | err => simp [probeLoop, hw, Nat.add_zero]
      | running =>
        have hgt : env.elapsedMs i > 5000 := by
          by_contra hle
          exact hlast ⟨hw, Nat.le_of_not_lt hle⟩
        simp [probeLoop, hw, hgt, Nat.add_zero]
    | succ n' =>
      have h0 := hall 0 (Nat.succ_pos n')
      rw [probeLoop_step_running env i f h0.1 h0.2]
      have hshift : ∀ m, m < n' →
          env.tryWait (i + 1 + m) = .running ∧ env.elapsedMs (i + 1 + m) ≤ 5000 := by
        intro m hm
        have := hall (m + 1) (Nat.succ_lt_succ hm)
        rwa [show i + (m + 1) = i + 1 + m by omega] at this
      have hlast' : ¬(env.tryWait (i + 1 + n') = .running ∧
          env.elapsedMs (i + 1 + n') ≤ 5000) := by
        rwa [show i + 1 + n' = i + (n' + 1) by omega]
      have := ih (i + 1) n' (Nat.lt_of_succ_lt_succ hn) hshift hlast'
      rw [this, show i + 1 + n' = i + (n' + 1) by omega]

/-- The result of the polling loop never depends on whether the cleanup kill
succeeds. -/
theorem probeLoop_killOk (env : ProbeEnv) (b : Bool) :
    ∀ (fuel i : Nat), probeLoop { env with killOk := b } i fuel = probeLoop env i fuel := by
  intro fuel
  induction fuel with
  | zero => intro i; rfl
  | succ f ih =>
    intro i
    show (match env.tryWait i with
      | .exited true => some (env.waitOutput.map rustTrim, [PEvent.spawn])
      | .exited false => some (none, [PEvent.spawn])
      | .err => some (none, [PEvent.spawn])
      | .running =>
        if env.elapsedMs i > 5000 then some (none, [PEvent.spawn, PEvent.kill])
        else probeLoop { env with killOk := b } (i + 1) f) = _
    cases hw : env.tryWait i with
    | exited b' => cases b' <;> simp [probeLoop, hw]
    | err => simp [probeLoop, hw]
    | running => simp [probeLoop, hw, ih]

/-- Claim C6: the version probe returns no version immediately when the spawn
fails; otherwise, once a poll breaks the running-within-bound pattern, a
successful exit yields the trimmed captured stdout, a failing exit (or a
wait error) yields no version, and passing the 5-second bound kills the
child and yields no version; the outcome never depends on whether that
kill succeeds. -/
theorem version_probe_outcomes (env : ProbeEnv) (fuel n : Nat) :
    (env.spawnOk = false →
      get_claude_version env fuel = some (none, [PEvent.spawn])) ∧
    (∀ b, get_claude_version { env with killOk := b } fuel =
      get_claude_version env fuel) ∧
    (env.spawnOk = true → n < fuel →
      (∀ m, m < n → env.tryWait m = .running ∧ env.elapsedMs m ≤ 5000) →
      ¬(env.tryWait n = .running ∧ env.elapsedMs n ≤ 5000) →
      get_claude_version env fuel = some (
        match env.tryWait n with
        | .exited true => (env.waitOutput.map rustTrim, [PEvent.spawn])
        | .exited false => (none, [PEvent.spawn])
        | .err => (none, [PEvent.spawn])
        | .running => (none, [PEvent.spawn, PEvent.kill]))) := by
  refine ⟨fun h => by simp [get_claude_version, h], ?_, ?_⟩
  · intro b
    show (if env.spawnOk then probeLoop { env with killOk := b } 0 fuel
          else some (none, [PEvent.spawn])) = _
    rw [probeLoop_killOk]
    rfl
  · intro hs hn hall hlast
    have := probeLoop_eval env fuel 0 n hn
      (by intro m hm; simpa using hall m hm) (by simpa using hlast)
    simpa [get_claude_version, hs] using this

/-- Witness for C6: a failing spawn yields no version, and a child that is
still running at the first check and exits successfully at the second
yields its trimmed stdout. -/
theorem version_probe_outcomes_w :
    get_claude_version penvSpawnFail 3 = some (none, [PEvent.spawn]) ∧
    get_claude_version penvVersion 3 =
      some (some "1.0.40 (Claude Code)", [PEvent.spawn]) := by
  refine ⟨(version_probe_outcomes penvSpawnFail 3 0).1 rfl, ?_⟩
  have h := (version_probe_outcomes penvVersion 3 1).2.2 rfl (by decide)
    (by decide) (by decide)
  rw [h]
  decide

/-- Counterexample to claim C2 as stated: `which` yields the candidate
`/usr/bin/claude`, the version probe on it fails (no version), yet the
returned descriptor reports `found = true`, not `found = false`. -/
theorem find_probe_failure_cex :
    find_claude_code_path fenvFound penvSpawnFail 1 =
      some (⟨true, some "/usr/bin/claude", none, none⟩, [PEvent.spawn]) ∧
    get_claude_version penvSpawnFail 1 = some (none, [PEvent.spawn]) := by
  exact ⟨by decide, by decide⟩

/-- Claim C2 (amended): when the search facility yields a candidate path but
the version probe on it fails, the descriptor still reports `found = true`
with the candidate path, no version and no error. -/
theorem find_probe_failure_keeps_found (env : FindEnv) (penv : ProbeEnv)
    (fuel : Nat) (w : WhichOutput) (evs : List PEvent)
    (hw : env.whichOutcome = .ok w) (hsucc : w.success = true)
    (hne : (rustTrim (firstLine w.stdout)).isEmpty = false)
    (hp : get_claude_version penv fuel = some (none, evs)) :
    find_claude_code_path env penv fuel =
      some (⟨true, some (rustTrim (firstLine w.stdout)), none, none⟩, evs) := by
  simp [find_claude_code_path, hw, hsucc, hne, hp]

/-- Witness for the amended C2 at a concrete environment. -/
theorem find_probe_failure_keeps_found_w :
    find_claude_code_path fenvFound penvSpawnFail 1 =
      some (⟨true, some (rustTrim (firstLine "/usr/bin/claude\n")), none, none⟩,
        [PEvent.spawn]) :=
  find_probe_failure_keeps_found fenvFound penvSpawnFail 1
    ⟨true, "/usr/bin/claude\n"⟩ [PEvent.spawn] rfl rfl (by decide) (by decide)

/-- Counterexample to claim C3 as stated: `findOnSearchPath` can return a
descriptor with `found = true` whose `version` field is absent (the probe
on the candidate failed), violating "found=true implies version is Some". -/
theorem descriptor_invariant_cex :
    find_claude_code_path fenvFound penvSpawnFail 1 =
      some (⟨true, some "/usr/bin/claude", none, none⟩, [PEvent.spawn]) ∧
    (ClaudeCodePathResult.mk true (some "/usr/bin/claude") none none).found = true ∧
    (ClaudeCodePathResult.mk true (some "/usr/bin/claude") none none).version = none := by
  exact ⟨by decide, rfl, rfl⟩

/-- Claim C3 (amended): every descriptor returned by `checkPath` satisfies
found=true implies version populated and no error, found=false implies an
error and no version, and the supplied path is echoed back in all cases;
every descriptor returned by `findOnSearchPath` satisfies found=false
implies an error, no version and no path, and found=true implies no error
and a path, while `version` may be absent when the probe failed. -/
theorem descriptor_invariants (fe : String → Bool) (penv : ProbeEnv) (fuel : Nat)
    (path : String) (fenv : FindEnv) (res res2 : ClaudeCodePathResult)
    (evs evs2 : List PEvent)
    (hc : check_claude_code_path fe penv fuel path = some (res, evs))
    (hf : find_claude_code_path fenv penv fuel = some (res2, evs2)) :
    ((res.found = true → res.version.isSome = true ∧ res.error = none) ∧
     (res.found = false → res.error.isSome = true ∧ res.version = none) ∧
     res.path = some path) ∧
    ((res2.found = true → res2.error = none ∧ res2.path.isSome = true) ∧
     (res2.found = false →
       res2.error.isSome = true ∧ res2.version = none ∧ res2.path = none)) := by
  constructor
  · unfold check_claude_code_path at hc
    split at hc
    · obtain ⟨rfl, rfl⟩ := by simpa using hc
      exact ⟨by simp, by simp, rfl⟩
    · cases hg : get_claude_version penv fuel with
      | none => rw [hg] at hc; exact absurd hc (by simp)
      | some r =>
        obtain ⟨v, evs'⟩ := r
        rw [hg] at hc
        cases v with
        | none =>
          obtain ⟨rfl, rfl⟩ := by simpa using hc
          exact ⟨by simp, by simp, rfl⟩
        | some ver =>
          obtain ⟨rfl, rfl⟩ := by simpa using hc
          exact ⟨by simp, by simp, rfl⟩
  · cases hw : fenv.whichOutcome with
    | error e =>
      simp only [find_claude_code_path, hw, Option.some.injEq, Prod.mk.injEq] at hf
      obtain ⟨h1, h2⟩ := hf
      subst h1
      exact ⟨by simp, by simp⟩
    | ok w =>
      by_cases hsucc : w.success = true
      · by_cases hemp : (rustTrim (firstLine w.stdout)).isEmpty = true
        · simp only [find_claude_code_path, hw, hsucc, if_true, hemp,
            Option.some.injEq, Prod.mk.injEq] at hf
          obtain ⟨h1, h2⟩ := hf
          subst h1
          exact ⟨by simp, by simp⟩
        · cases hg : get_claude_version penv fuel with
          | none =>
            simp [find_claude_code_path, hw, hsucc, hemp, hg] at hf
          | some r =>
            obtain ⟨v, evs'⟩ := r
            simp only [find_claude_code_path, hw, hsucc, if_true, hemp, if_false,
              Bool.false_eq_true, hg, Option.some.injEq, Prod.mk.injEq] at hf
            obtain ⟨h1, h2⟩ := hf
            subst h1
            exact ⟨by simp, by simp⟩
      · simp only [find_claude_code_path, hw, hsucc, if_false, Bool.false_eq_true,
          Option.some.injEq, Prod.mk.injEq] at hf
        obtain ⟨h1, h2⟩ := hf
        subst h1
        exact ⟨by simp, by simp⟩

/-- Witness for the amended C3 at concrete environments. -/
theorem descriptor_invariants_w :
    (ClaudeCodePathResult.mk false (some "/x") none
      (some "File does not exist")).error.isSome = true ∧
    (ClaudeCodePathResult.mk false (some "/x") none
      (some "File does not exist")).path = some "/x" ∧
    (ClaudeCodePathResult.mk true (some "/usr/bin/claude")
      (some "1.0.40 (Claude Code)") none).error = none := by
  have h := descriptor_invariants (fun _ => false) penvVersion 3 "/x" fenvFound
    ⟨false, some "/x", none, some "File does not exist"⟩
    ⟨true, some "/usr/bin/claude", some "1.0.40 (Claude Code)", none⟩
    [] [PEvent.spawn] (by decide) (by decide)
  exact ⟨(h.1.2.1 rfl).1, h.1.2.2, (h.2.1 rfl).1⟩

/-- Claim C7: `checkPath` on a path that does not exist returns found=false,
the "File does not exist" error, no version, the input path echoed back,
and spawns no process (the empty event list: the probe never runs). -/
theorem check_nonexistent_path (fe : String → Bool) (penv : ProbeEnv)
    (fuel : Nat) (path : String) (h : fe path = false) :
    check_claude_code_path fe penv fuel path =
      some (⟨false, some path, none, some "File does not exist"⟩, []) := by
  simp [check_claude_code_path, h]

/-- Witness for C7 at a concrete path. -/
theorem check_nonexistent_path_w :
    check_claude_code_path (fun _ => false) penvVersion 3 "/nonexistent" =
      some (⟨false, some "/nonexistent", none, some "File does not exist"⟩, []) :=
  check_nonexistent_path (fun _ => false) penvVersion 3 "/nonexistent" rfl

/-- Claim C1: a call to `start` when a handle is already present fails with
the `AlreadyRunning` error, spawns no process and leaves the stored handle
unchanged; and `start` can only succeed when no handle was present. -/
theorem start_guard_single_instance (env : StartEnv) (p : Option String)
    (c : CommandChild) (st : Option CommandChild) (pid : Nat) :
    start_claude_code_server env (some c) p =
      (.error "Claude Code server is already running", some c, none) ∧
    ((start_claude_code_server env st p).1 = .ok pid → st = none) := by
  refine ⟨rfl, ?_⟩
  cases st with
  | none => intro _; rfl
  | some c' => intro h; simp [start_claude_code_server] at h

/-- Witness for C1 at a concrete environment. -/
theorem start_guard_single_instance_w :
    start_claude_code_server envStartOk (some ⟨9⟩) none =
      (.error "Claude Code server is already running", some ⟨9⟩, none) ∧
    (none : Option CommandChild) = none :=
  ⟨(start_guard_single_instance envStartOk none ⟨9⟩ none 7).1,
   (start_guard_single_instance envStartOk none ⟨9⟩ none 7).2 rfl⟩

/-- The sidecar-creation failure message never equals the `AlreadyRunning`
message, whatever the OS reason appended to it. -/
theorem sidecarMsgNe (e : String) :
    ("Failed to create sidecar command: " ++ e) ≠
      "Claude Code server is already running" := by
  intro h
  have h2 := congrArg (fun s => s.data.head?) h
  simp [String.data_append] at h2

/-- The spawn failure message never equals the `AlreadyRunning` message,
whatever the OS reason appended to it. -/
theorem spawnMsgNe (e : String) :
    ("Failed to spawn sidecar: " ++ e) ≠
      "Claude Code server is already running" := by
  intro h
  have h2 := congrArg (fun s => s.data.head?) h
  simp [String.data_append] at h2

/-- Claim C4: when the spawn fails, `start` fails with the spawn-failure
message carrying the OS reason and stores no handle, so status reads false
and a subsequent `start` is never rejected with `AlreadyRunning`. -/
theorem start_spawn_failure_state_unchanged (env env2 : StartEnv)
    (p p2 : Option String) (base : Command) (e : String)
    (hs : env.sidecar = .ok base)
    (hf : env.spawn (buildCommand base p) = .error e) :
    start_claude_code_server env none p =
      (.error ("Failed to spawn sidecar: " ++ e), none, some (buildCommand base p)) ∧
    get_claude_code_server_status (start_claude_code_server env none p).2.1 =
      (false, none) ∧
    (start_claude_code_server env2 none p2).1 ≠
      .error "Claude Code server is already running" := by
  have h1 : start_claude_code_server env none p =
      (.error ("Failed to spawn sidecar: " ++ e), none, some (buildCommand base p)) := by
    simp [start_claude_code_server, hs, hf]
  refine ⟨h1, by rw [h1]; rfl, ?_⟩
  cases hs2 : env2.sidecar with
  | error e2 =>
    simp only [start_claude_code_server, hs2]
    intro h
    exact sidecarMsgNe e2 (by injection h)
  | ok base2 =>
    cases hf2 : env2.spawn (buildCommand base2 p2) with
    | error e2 =>
      simp only [start_claude_code_server, hs2, hf2]
      intro h
      exact spawnMsgNe e2 (by injection h)
    | ok c2 =>
      simp [start_claude_code_server, hs2, hf2]

/-- Witness for C4 at a concrete environment. -/
theorem start_spawn_failure_state_unchanged_w :
    start_claude_code_server envStartSpawnFail none none =
      (.error ("Failed to spawn sidecar: " ++ "boom"), none, some (buildCommand baseCmd none)) ∧
    get_claude_code_server_status (start_claude_code_server envStartSpawnFail none none).2.1 =
      (false, none) ∧
    (start_claude_code_server envStartOk none none).1 ≠
      .error "Claude Code server is already running" :=
  start_spawn_failure_state_unchanged envStartSpawnFail envStartOk none none baseCmd "boom"
    rfl rfl

/-- Claim C5: after `stop` returns the state is `NotRunning` and status reads
false whether the kill succeeded or not; when the OS refuses the kill,
`stop` reports the kill-failure message but the handle is still gone. -/
theorem stop_clears_handle_even_on_kill_failure (env : StopEnv)
    (st : Option CommandChild) (c : CommandChild) (e : String) :
    (stop_claude_code_server env st).2.1 = none ∧
    get_claude_code_server_status (stop_claude_code_server env st).2.1 =
      (false, none) ∧
    (env.kill c = .error e →
      stop_claude_code_server env (some c) =
        (.error ("Failed to kill process: " ++ e), none, true)) := by
  have h1 : (stop_claude_code_server env st).2.1 = none := by
    cases st with
    | none => rfl
    | some c' =>
      cases hk : env.kill c' with
      | error e' => simp [stop_claude_code_server, hk]
      | ok u => simp [stop_claude_code_server, hk]
  refine ⟨h1, by rw [h1]; rfl, ?_⟩
  intro hk
  simp [stop_claude_code_server, hk]

/-- Witness for C5 at a concrete environment. -/
theorem stop_clears_handle_even_on_kill_failure_w :
    (stop_claude_code_server envStopFail (some ⟨3⟩)).2.1 = none ∧
    get_claude_code_server_status (stop_claude_code_server envStopFail (some ⟨3⟩)).2.1 =
      (false, none) ∧
    stop_claude_code_server envStopFail (some ⟨3⟩) =
      (.error ("Failed to kill process: " ++ "EPERM"), none, true) := by
  have h := stop_clears_handle_even_on_kill_failure envStopFail (some ⟨3⟩) ⟨3⟩ "EPERM"
  exact ⟨h.1, h.2.1, h.2.2 rfl⟩

/-- Claim C9: `stop` in the `NotRunning` state succeeds, performs no kill and
leaves the state unchanged; a second `stop` always succeeds as that no-op
and reproduces the first call's final state, so `stop` is idempotent. -/
theorem stop_idempotent (env env2 : StopEnv) (st : Option CommandChild) :
    stop_claude_code_server env none = (.ok (), none, false) ∧
    stop_claude_code_server env2 ((stop_claude_code_server env st).2.1) =
      (.ok (), none, false) ∧
    (stop_claude_code_server env2 ((stop_claude_code_server env st).2.1)).2.1 =
      (stop_claude_code_server env st).2.1 ∧
    ((stop_claude_code_server env st).1 = .ok () →
      (stop_claude_code_server env2 ((stop_claude_code_server env st).2.1)).1 = .ok ()) := by
  have h1 : (stop_claude_code_server env st).2.1 = none := by
    cases st with
    | none => rfl
    | some c' =>
      cases hk : env.kill c' with
      | error e' => simp [stop_claude_code_server, hk]
      | ok u => simp [stop_claude_code_server, hk]
  rw [h1]
  exact ⟨rfl, rfl, rfl, fun _ => rfl⟩

/-- Witness for C9 at a concrete environment. -/
theorem stop_idempotent_w :
    stop_claude_code_server envStopOk none = (.ok (), none, false) ∧
    (stop_claude_code_server envStopOk ((stop_claude_code_server envStopOk (some ⟨3⟩)).2.1)).1 =
      .ok () := by
  have h := stop_idempotent envStopOk envStopOk (some ⟨3⟩)
  exact ⟨h.1, h.2.2.2 rfl⟩

/-- Claim C10: `start` with an empty-string override behaves identically to
`start` with no override; in particular no environment variable and no
command-line argument are added to the command. -/
theorem start_empty_override_eq_none (env : StartEnv) (st : Option CommandChild)
    (base : Command) :
    start_claude_code_server env st (some "") = start_claude_code_server env st none ∧
    buildCommand base (some "") = base := by
  constructor
  · cases st with
    | some c => rfl
    | none =>
      cases hs : env.sidecar with
      | error e => simp [start_claude_code_server, hs]
      | ok base' =>
        have he : "".isEmpty = true := by decide
        simp [start_claude_code_server, hs, buildCommand, he]
  · rfl

/-- A handle is present after one supervisor call exactly when it was present
and the call was not a `stop`, or the call was a `start` issued with no
handle present whose OS actions succeed. -/
theorem step_isSome (st : Option CommandChild) (op : Op) :
    (step st op).isSome = true ↔
      (st.isSome = true ∧ (!op.isStop) = true) ∨
      ∃ env p, op = Op.start env p ∧ st = none ∧ startOk env p = true := by
  cases op with
  | start env p =>
    cases st with
    | some c => simp [step, start_claude_code_server, Op.isStop]
    | none =>
      have hs : (step none (Op.start env p)).isSome = startOk env p := by
        cases hsd : env.sidecar with
        | error e => simp [step, start_claude_code_server, startOk, hsd]
        | ok base =>
          cases hsp : env.spawn (buildCommand base p) with
          | error e => simp [step, start_claude_code_server, startOk, hsd, hsp]
          | ok c => simp [step, start_claude_code_server, startOk, hsd, hsp]
      rw [hs]
      constructor
      · intro hok; exact Or.inr ⟨env, p, rfl, rfl, hok⟩
      · rintro (⟨habs, -⟩ | ⟨env', p', heq, -, hok⟩)
        · simp at habs
        · injection heq with h1 h2
          subst h1; subst h2
          exact hok
  | stop senv =>
    have hz : step st (Op.stop senv) = none := by
      cases st with
      | none => rfl
      | some c =>
        cases hk : senv.kill c with
        | error e => simp [step, stop_claude_code_server, hk]
        | ok u => simp [step, stop_claude_code_server, hk]
    rw [hz]
    simp [Op.isStop]
  | status =>
    cases st <;> simp [step, get_claude_code_server_status, Op.isStop]

/-- Peeling one call off a "successful start followed by no stop"
decomposition of a call sequence. -/
theorem decomp_cons (op : Op) (rest : List Op) (st : Option CommandChild) :
    (∃ l env p r, op :: rest = l ++ Op.start env p :: r ∧ runOps st l = none ∧
        startOk env p = true ∧ r.all (fun o => !o.isStop) = true) ↔
      ((∃ env p, op = Op.start env p ∧ st = none ∧ startOk env p = true ∧
          rest.all (fun o => !o.isStop) = true) ∨
       (∃ l env p r, rest = l ++ Op.start env p :: r ∧
          runOps (step st op) l = none ∧
          startOk env p = true ∧ r.all (fun o => !o.isStop) = true)) := by
  constructor
  · rintro ⟨l, env, p, r, heq, hnone, hok, hall⟩
    cases l with
    | nil =>
      simp only [List.nil_append] at heq
      injection heq with h1 h2
      subst h2
      exact Or.inl ⟨env, p, h1, hnone, hok, hall⟩
    | cons a l' =>
      simp only [List.cons_append] at heq
      injection heq with h1 h2
      subst h1
      exact Or.inr ⟨l', env, p, r, h2, hnone, hok, hall⟩
  · rintro (⟨env, p, hop, hst, hok, hall⟩ | ⟨l, env, p, r, heq, hnone, hok, hall⟩)
    · exact ⟨[], env, p, rest, by rw [hop]; rfl, hst, hok, hall⟩
    · exact ⟨op :: l, env, p, r, by rw [heq]; rfl, hnone, hok, hall⟩

/-- A handle is present after running a call sequence exactly when it was
present initially and no call was a `stop`, or some `start` in the
sequence was issued with no handle present, its OS actions succeeded, and
no later call was a `stop`. -/
theorem runOps_isSome_iff : ∀ (ops : List Op) (st : Option CommandChild),
    (runOps st ops).isSome = true ↔
      (st.isSome = true ∧ ops.all (fun o => !o.isStop) = true) ∨
      ∃ l env p r, ops = l ++ Op.start env p :: r ∧ runOps st l = none ∧
        startOk env p = true ∧ r.all (fun o => !o.isStop) = true := by
  intro ops
  induction ops with
  | nil =>
    intro st
    constructor
    · intro h; exact Or.inl ⟨h, rfl⟩
    · rintro (⟨h, -⟩ | ⟨l, env, p, r, habs, -, -, -⟩)
      · exact h
      · cases l <;> simp at habs
  | cons op rest ih =>
    intro st
    show (runOps (step st op) rest).isSome = true ↔ _
    constructor
    · intro h
      rcases (ih (step st op)).1 h with ⟨hs, hall⟩ | hD2
      · rcases (step_isSome st op).1 hs with ⟨h1, h2⟩ | ⟨env, p, hop, hstn, hok⟩
        · exact Or.inl ⟨h1, by simp [List.all_cons, h2, hall]⟩
        · exact Or.inr ((decomp_cons op rest st).2
            (Or.inl ⟨env, p, hop, hstn, hok, hall⟩))
      · exact Or.inr ((decomp_cons op rest st).2 (Or.inr hD2))
    · rintro (⟨hs, hall⟩ | hD)
      · have hsplit : (!op.isStop) = true ∧
            rest.all (fun o => !o.isStop) = true := by
          simpa [List.all_cons, Bool.and_eq_true] using hall
        exact (ih (step st op)).2
          (Or.inl ⟨(step_isSome st op).2 (Or.inl ⟨hs, hsplit.1⟩), hsplit.2⟩)
      · rcases (decomp_cons op rest st).1 hD with
          ⟨env, p, hop, hstn, hok, hall⟩ | hD2
        · exact (ih (step st op)).2
            (Or.inl ⟨(step_isSome st op).2 (Or.inr ⟨env, p, hop, hstn, hok⟩), hall⟩)
        · exact (ih (step st op)).2 (Or.inr hD2)

/-- Claim C8: `status` is a pure read returning exactly whether a handle is
present, and over every call sequence from the initial `NotRunning` state
it reads true precisely when some `start` succeeded (issued with no handle
present, OS actions succeeding) and no `stop` followed it. -/
theorem status_pure_and_exact (st : Option CommandChild) (ops : List Op) :
    get_claude_code_server_status st = (st.isSome, st) ∧
    ((runOps none ops).isSome = true ↔
      ∃ l env p r, ops = l ++ Op.start env p :: r ∧ runOps none l = none ∧
        startOk env p = true ∧ r.all (fun o => !o.isStop) = true) := by
  refine ⟨rfl, ?_⟩
  constructor
  · intro h
    rcases (runOps_isSome_iff ops none).1 h with ⟨habs, -⟩ | hD
    · simp at habs
    · exact hD
  · intro hD
    exact (runOps_isSome_iff ops none).2 (Or.inr hD)

/-- Witness for C8: status reads false initially, and true after one
successful `start`. -/
theorem status_pure_and_exact_w :
    get_claude_code_server_status (none : Option CommandChild) = (false, none) ∧
    (runOps none [Op.start envStartOk none]).isSome = true := by
  have h := status_pure_and_exact none [Op.start envStartOk none]
  exact ⟨h.1, h.2.2 ⟨[], envStartOk, none, [], rfl, rfl, rfl, rfl⟩⟩

end Incito
